import Mathlib

/-!
# Sale/Inventory consistency workflow — shallow embedding

A shallow embedding of the Sale Workflow, Inventory Ledger and
Pricing/Invoice Formatter of the RepairServiceAPI repository
(`src/sales/sales.service.ts`, `src/products/products.service.ts`,
`prisma/schema.prisma`, `src/sales/dto/create-sale.dto.ts`), together with
proofs of the testable properties stated in the design document.

Modelling conventions:
* JavaScript numbers holding money (`price`, `totalAmount`) are modelled as
  exact rationals (`Rat`); item quantities are `Nat` (the schema type is
  `Int`, the DTO validator `@IsPositive` admits only positive values, and no
  modelled operation can store a negative quantity).
* Database rows become lists of records; the primary-key uniqueness that
  postgres enforces on `Product.id` is the explicit well-formedness
  predicate `State.WF`.
* Opaque uuid/string identifiers become `Nat`; fresh-id generation
  (`@default(uuid())`) is a counter in the state.
* A thrown `NotFoundException` / `BadRequestException` becomes an
  `Except.error` carrying a structured error with the data the exception
  message interpolates; `prisma.$transaction` rollback semantics become the
  convention that an operation returning `Except.error` also returns the
  caller's state unchanged.
* Display-only response enrichment (user display name, invoice-number string
  formatting) is not read by any verified property and is left out of the
  record types; every field that any modelled operation reads or writes is
  present.
-/

namespace RepairService

/-- `enum PaymentMethod` from `prisma/schema.prisma`. -/
inductive PaymentMethod where
  | CASH
  | CREDIT_CARD
  | DEBIT_CARD
  | TRANSFER
  | YAPE
  | PLIN
deriving DecidableEq, Repr

/-- `model Product` (`prisma/schema.prisma`): the fields the sale workflow
and the stock ledger read or write. `stock` is `Int` in the schema, so the
model lets it range over `Int`; non-negativity is proved, not assumed. -/
structure Product where
  id : Nat
  name : String
  description : Option String
  price : Rat
  cost : Rat
  stock : Int
deriving DecidableEq, Repr

/-- `model Customer`: only `id` and `name` are read by the sale workflow. -/
structure Customer where
  id : Nat
  name : String
deriving DecidableEq, Repr

/-- `model SaleItem`: one line of a persisted sale (the `saleId` foreign key
is implicit in the nesting of items inside their `Sale`). -/
structure SaleItem where
  productId : Nat
  quantity : Nat
  price : Rat
deriving DecidableEq, Repr

/-- `model Sale` with its owned `SaleItem` collection. -/
structure Sale where
  id : Nat
  customerId : Option Nat
  customerName : Option String
  userId : Nat
  totalAmount : Rat
  paymentMethod : PaymentMethod
  createdAt : Nat
  items : List SaleItem
deriving DecidableEq, Repr

/-- `CreateSaleItemDto` (`src/sales/dto/create-sale.dto.ts`): `price` is
absent (`undefined`) or a number, hence `Option Rat`. -/
structure CreateSaleItemDto where
  productId : Nat
  quantity : Nat
  price : Option Rat
deriving DecidableEq, Repr

/-- `CreateSaleDto` (`src/sales/dto/create-sale.dto.ts`). -/
structure CreateSaleDto where
  customerId : Option Nat
  customerName : Option String
  paymentMethod : PaymentMethod
  items : List CreateSaleItemDto
deriving DecidableEq, Repr

/-- `UpdateSaleDto`: the patch type accepted by `SalesService.update`; every
field is optional, `undefined` (here `none`) meaning "leave unchanged". -/
structure UpdateSaleDto where
  customerId : Option Nat
  customerName : Option String
  paymentMethod : Option PaymentMethod
  items : Option (List CreateSaleItemDto)
deriving DecidableEq, Repr

/-- The structured content of the exceptions thrown by the sale workflow and
the stock ledger; each constructor corresponds to one `throw` site and
carries the data its message interpolates. -/
inductive SaleError where
  /-- `BadRequestException('La venta debe tener al menos un ítem')` -/
  | emptyItems
  /-- `NotFoundException('Cliente con ID ... no encontrado')` -/
  | customerNotFound (customerId : Nat)
  /-- `BadRequestException('Uno o más productos no existen')` -/
  | productsDoNotExist
  /-- `BadRequestException('Stock insuficiente para el producto {name}.
  Disponible: {available}, Solicitado: {requested}')` -/
  | insufficientStock (productName : String) (available : Int) (requested : Nat)
  /-- `NotFoundException('Venta con ID ... no encontrada')` -/
  | saleNotFound (saleId : Nat)
  /-- `NotFoundException('Producto con ID ... no encontrado')` -/
  | productNotFound (productId : Nat)
  /-- `BadRequestException('No se pueden modificar los ítems de una venta ya
  realizada')` -/
  | itemsImmutable
  /-- `BadRequestException('No hay suficiente stock disponible. Stock
  actual: {stock}')` thrown by `ProductsService.updateStock` -/
  | stockWouldGoNegative (currentStock : Int)
deriving DecidableEq, Repr

/-- The authoritative store: the rows the workflow touches, a fresh-id
counter standing for uuid generation, and a clock for `createdAt`. -/
structure State where
  products : List Product
  customers : List Customer
  sales : List Sale
  nextSaleId : Nat
  now : Nat
deriving DecidableEq, Repr

/-- `prisma.product.findUnique({ where: { id } })`. -/
def findProduct (s : State) (id : Nat) : Option Product :=
  s.products.find? (fun p => p.id == id)

/-- `prisma.customer.findUnique({ where: { id } })`. -/
def findCustomer (s : State) (id : Nat) : Option Customer :=
  s.customers.find? (fun c => c.id == id)

/-- `prisma.sale.findUnique({ where: { id } })` (with its items included). -/
def findSale (s : State) (id : Nat) : Option Sale :=
  s.sales.find? (fun sa => sa.id == id)

/-- Primary-key uniqueness of `Product.id`, enforced by the database. -/
def State.WF (s : State) : Prop :=
  (s.products.map Product.id).Nodup

/-- The fixed placeholder customer label `'Cliente no registrado'`
substituted when neither `customerId` nor `customerName` is supplied
(`sales.service.ts` line 37). -/
def placeholderCustomerName : String := "Cliente no registrado"

/-- Customer-resolution phase of `SalesService.create` (lines 27–38): a
supplied `customerId` must resolve (otherwise `NotFoundException`); when
neither `customerId` nor `customerName` is supplied the placeholder label is
substituted. Returns the `(customerId, customerName)` pair the sale is
persisted with. -/
def resolveCustomer (s : State) (dto : CreateSaleDto) :
    Except SaleError (Option Nat × Option String) :=
  match dto.customerId with
  | some cid =>
    match findCustomer s cid with
    | some _ => .ok (some cid, dto.customerName)
    | none => .error (.customerNotFound cid)
  | none =>
    match dto.customerName with
    | some n => .ok (none, some n)
    | none => .ok (none, some placeholderCustomerName)

/-- The batch lookup `prisma.product.findMany({ where: { id: { in:
productIds } } })` (lines 42–46): every stored row whose id occurs in the
requested list, each row once. -/
def findProductsIn (s : State) (productIds : List Nat) : List Product :=
  s.products.filter (fun p => productIds.contains p.id)

/-- `productMap.get(item.productId)`: lookup in the batch result (the map
built on line 54). -/
def batchLookup (products : List Product) (id : Nat) : Option Product :=
  products.find? (fun p => p.id == id)

/-- The stock-check / price-defaulting / total-accumulation loop of
`SalesService.create` (lines 56–71), walking the items in input order.
`if (!item.price)` is JavaScript falsiness: an absent price and an explicit
price `0` both fall back to the product's catalog price. Returns the
resolved sale items together with `totalAmount`, or the error of the first
item whose stock check fails. An item whose product is missing from the
batch (unreachable once the count check has passed on a well-formed store)
would crash the handler and surface as the generic catch-all
`BadRequestException`; the count check error stands in for it. -/
def checkStockAndPrice (products : List Product) :
    List CreateSaleItemDto → Except SaleError (List SaleItem × Rat)
  | [] => .ok ([], 0)
  | item :: rest =>
    match batchLookup products item.productId with
    | none => .error .productsDoNotExist
    | some product =>
      if product.stock < (item.quantity : Int) then
        .error (.insufficientStock product.name product.stock item.quantity)
      else
        let price :=
          match item.price with
          | some p => if p = 0 then product.price else p
          | none => product.price
        match checkStockAndPrice products rest with
        | .ok (items, total) =>
          .ok (⟨item.productId, item.quantity, price⟩ :: items,
               price * (item.quantity : Rat) + total)
        | .error e => .error e

/-- One stock write `prisma.product.update({ where: { id }, data: { stock:
{ decrement: quantity } } })` (lines 100–107). -/
def decrementStock (products : List Product) (id : Nat) (quantity : Nat) :
    List Product :=
  products.map (fun p =>
    if p.id == id then { p with stock := p.stock - (quantity : Int) } else p)

/-- One stock write `prisma.product.update({ where: { id }, data: { stock:
{ increment: quantity } } })` (`remove`, lines 376–383). -/
def incrementStock (products : List Product) (id : Nat) (quantity : Nat) :
    List Product :=
  products.map (fun p =>
    if p.id == id then { p with stock := p.stock + (quantity : Int) } else p)

/-- The decrement loop of the create transaction (lines 99–108), one
decrement per item, in input order. -/
def applyDecrements (products : List Product) (items : List SaleItem) :
    List Product :=
  items.foldl (fun ps it => decrementStock ps it.productId it.quantity) products

/-- The increment loop of the delete transaction (lines 375–384). -/
def applyIncrements (products : List Product) (items : List SaleItem) :
    List Product :=
  items.foldl (fun ps it => incrementStock ps it.productId it.quantity) products

/-- The validate phase plus transaction body of `SalesService.create`
(lines 19–111): each `throw` becomes `Except.error`; reaching the end means
the transaction committed, returning the updated store and the persisted
sale. -/
def createChecked (s : State) (dto : CreateSaleDto) (userId : Nat) :
    Except SaleError (State × Sale) :=
  if dto.items.isEmpty then
    .error .emptyItems
  else
    match resolveCustomer s dto with
    | .error e => .error e
    | .ok (customerId, customerName) =>
      let productIds := dto.items.map (fun it => it.productId)
      let products := findProductsIn s productIds
      if products.length ≠ productIds.length then
        .error .productsDoNotExist
      else
        match checkStockAndPrice products dto.items with
        | .error e => .error e
        | .ok (items, totalAmount) =>
          let sale : Sale :=
            { id := s.nextSaleId
              customerId := customerId
              customerName := customerName
              userId := userId
              totalAmount := totalAmount
              paymentMethod := dto.paymentMethod
              createdAt := s.now
              items := items }
          .ok ({ s with
                   sales := sale :: s.sales
                   products := applyDecrements s.products items
                   nextSaleId := s.nextSaleId + 1
                   now := s.now + 1 },
               sale)

/-- `SalesService.create` as observed by the caller: on any thrown error the
transaction has not committed (or was rolled back), so the store is exactly
the pre-state. -/
def create (s : State) (dto : CreateSaleDto) (userId : Nat) :
    State × Except SaleError Sale :=
  match createChecked s dto userId with
  | .ok (s', sale) => (s', .ok sale)
  | .error e => (s, .error e)

/-- `SalesService.remove` (lines 367–401): look the sale up (`NotFound` when
absent), then in one transaction restore every item's stock, delete the
items and delete the sale. Deleting the sale record deletes its owned item
rows with it. -/
def remove (s : State) (id : Nat) : State × Except SaleError Unit :=
  match findSale s id with
  | none => (s, .error (.saleNotFound id))
  | some sale =>
    ({ s with
        products := applyIncrements s.products sale.items
        sales := s.sales.eraseP (fun sa => sa.id == id) },
     .ok ())

/-- The field rewrite performed by `prisma.sale.update` in
`SalesService.update` (lines 324–330): a `none` (`undefined`) patch field
leaves the stored value unchanged. -/
def applyPatch (sale : Sale) (patch : UpdateSaleDto) : Sale :=
  { sale with
      customerId :=
        match patch.customerId with
        | some cid => some cid
        | none => sale.customerId
      customerName :=
        match patch.customerName with
        | some n => some n
        | none => sale.customerName
      paymentMethod := patch.paymentMethod.getD sale.paymentMethod }

/-- `SalesService.update` (lines 301–360): the sale must exist, a patch
carrying an `items` collection (even an empty one — JavaScript truthiness)
is rejected, a supplied `customerId` must resolve, and only the customer
reference/name and payment method are rewritten. -/
def update (s : State) (id : Nat) (patch : UpdateSaleDto) :
    State × Except SaleError Sale :=
  match findSale s id with
  | none => (s, .error (.saleNotFound id))
  | some sale =>
    if patch.items.isSome then
      (s, .error .itemsImmutable)
    else
      match patch.customerId with
      | some cid =>
        match findCustomer s cid with
        | some _ =>
          ({ s with sales := s.sales.map (fun sa =>
              if sa.id == id then applyPatch sa patch else sa) },
           .ok (applyPatch sale patch))
        | none => (s, .error (.customerNotFound cid))
      | none =>
        ({ s with sales := s.sales.map (fun sa =>
            if sa.id == id then applyPatch sa patch else sa) },
         .ok (applyPatch sale patch))

/-- One line of the derived invoice (`SaleInvoiceItemDto`): product display
fields as resolved at read time, quantity, captured unit price, and
`unitPrice * quantity`. -/
structure SaleInvoiceItem where
  productName : Option String
  quantity : Nat
  unitPrice : Rat
  totalPrice : Rat
deriving DecidableEq, Repr

/-- The numeric and line-item content of `SaleInvoiceDto`; the
invoice-number string and display names are formatting over fields already
present here and are not read by any verified property. -/
structure SaleInvoice where
  subtotal : Rat
  tax : Rat
  totalAmount : Rat
  paymentMethod : PaymentMethod
  items : List SaleInvoiceItem
deriving DecidableEq, Repr

/-- `SalesService.generateInvoice` (lines 240–293): `NotFound` when the sale
does not resolve; otherwise derive `subtotal = totalAmount / 1.18`,
`tax = totalAmount - subtotal` (18% IGV, tax-inclusive total) and one line
per sale item. -/
def generateInvoice (s : State) (id : Nat) : Except SaleError SaleInvoice :=
  match findSale s id with
  | none => .error (.saleNotFound id)
  | some sale =>
    let subtotal := sale.totalAmount / (1.18 : Rat)
    let tax := sale.totalAmount - subtotal
    .ok
      { subtotal := subtotal
        tax := tax
        totalAmount := sale.totalAmount
        paymentMethod := sale.paymentMethod
        items := sale.items.map (fun it =>
          { productName := (findProduct s it.productId).map Product.name
            quantity := it.quantity
            unitPrice := it.price
            totalPrice := it.price * (it.quantity : Rat) }) }

/-- `ProductsService.updateStock` (lines 230–253): the product must exist
(`findOne` throws `NotFound`), the adjustment is rejected when it would
leave the stock negative, and otherwise the stock is incremented by the
(possibly negative) quantity. Returns the updated product. -/
def updateStock (s : State) (id : Nat) (quantity : Int) :
    State × Except SaleError Product :=
  match findProduct s id with
  | none => (s, .error (.productNotFound id))
  | some product =>
    if product.stock + quantity < 0 then
      (s, .error (.stockWouldGoNegative product.stock))
    else
      ({ s with products := s.products.map (fun p =>
          if p.id == id then { p with stock := p.stock + quantity } else p) },
       .ok { product with stock := product.stock + quantity })

/-- One operation of the sale workflow, for reasoning about operation
sequences. -/
inductive SaleOp where
  | createOp (dto : CreateSaleDto) (userId : Nat)
  | deleteOp (saleId : Nat)
deriving Repr

/-- The store after one workflow operation (a failed operation leaves the
store unchanged). -/
def stepOp (s : State) (op : SaleOp) : State :=
  match op with
  | .createOp dto userId => (create s dto userId).1
  | .deleteOp saleId => (remove s saleId).1

/-- The store after a sequence of workflow operations. -/
def runOps (s : State) (ops : List SaleOp) : State :=
  ops.foldl stepOp s

/-- Every product's stock is non-negative. -/
def StocksNonneg (s : State) : Prop :=
  ∀ p ∈ s.products, 0 ≤ p.stock

instance (s : State) : Decidable (StocksNonneg s) :=
  inferInstanceAs (Decidable (∀ p ∈ s.products, 0 ≤ p.stock))

instance (s : State) : Decidable s.WF :=
  inferInstanceAs (Decidable (s.products.map Product.id).Nodup)

/-- The unit price the specification prescribes for a candidate item: the
item's explicit price when one is given, the product's catalog price
otherwise. (Claim-side definition, transcribed from the specification for
comparison with the computed `totalAmount`.) -/
def specUnitPrice (s : State) (it : CreateSaleItemDto) : Rat :=
  match it.price with
  | some p => p
  | none => ((findProduct s it.productId).map Product.price).getD 0

/-- The total the specification prescribes: the sum, over the candidate's
items in input order, of `quantity * unitPrice`. (Claim-side definition.) -/
def specTotal (s : State) (dto : CreateSaleDto) : Rat :=
  (dto.items.map (fun it => (it.quantity : Rat) * specUnitPrice s it)).sum

/-! ## Concrete fixtures

Small concrete stores and requests, used to instantiate the verified
properties (mirroring the scenario data of the design document: a product
with stock 5 and price 10, a sale with tax-inclusive total 118). -/

def exScreen : Product :=
  { id := 1, name := "Pantalla", description := none, price := 10, cost := 6, stock := 5 }

def exBattery : Product :=
  { id := 2, name := "Bateria", description := some "celda", price := 20, cost := 12, stock := 3 }

def exState : State :=
  { products := [exScreen, exBattery]
    customers := [{ id := 9, name := "Ana" }]
    sales := []
    nextSaleId := 100
    now := 50 }

def exSale : Sale :=
  { id := 41, customerId := none, customerName := some "Cliente"
    userId := 7, totalAmount := 118, paymentMethod := .CASH, createdAt := 20
    items := [{ productId := 1, quantity := 2, price := 59 }] }

def exSaleState : State :=
  { products := [exScreen, exBattery]
    customers := [{ id := 9, name := "Ana" }]
    sales := [exSale]
    nextSaleId := 100
    now := 50 }

/-- A candidate sale naming no customer at all. -/
def exDtoNoCustomer : CreateSaleDto :=
  { customerId := none, customerName := none, paymentMethod := .CASH
    items := [{ productId := 1, quantity := 3, price := none }] }

/-- A candidate sale mixing a catalog-default and an explicit unit price. -/
def exDtoMix : CreateSaleDto :=
  { customerId := none, customerName := some "Luis", paymentMethod := .CASH
    items := [{ productId := 1, quantity := 3, price := none },
              { productId := 2, quantity := 2, price := some 7 }] }

/-- A candidate sale whose second item asks for more than the stock. -/
def exDtoInsuf : CreateSaleDto :=
  { customerId := none, customerName := none, paymentMethod := .CASH
    items := [{ productId := 2, quantity := 1, price := none },
              { productId := 1, quantity := 9, price := none }] }

/-- A candidate sale referencing the same (existing) product twice. -/
def exDtoDup : CreateSaleDto :=
  { customerId := none, customerName := some "Luis", paymentMethod := .CASH
    items := [{ productId := 1, quantity := 1, price := some 5 },
              { productId := 1, quantity := 1, price := some 5 }] }

/-- A candidate sale naming a customer id that does not resolve. -/
def exDtoBadCustomer : CreateSaleDto :=
  { customerId := some 77, customerName := none, paymentMethod := .CASH
    items := [{ productId := 1, quantity := 1, price := none }] }

/-- The sale `create exState exDtoNoCustomer 7` persists. -/
def exSaleCreated : Sale :=
  { id := 100, customerId := none, customerName := some placeholderCustomerName
    userId := 7, totalAmount := 30, paymentMethod := .CASH, createdAt := 50
    items := [{ productId := 1, quantity := 3, price := 10 }] }

/-- The store after `create exState exDtoNoCustomer 7`. -/
def exStateAfterCreate : State :=
  { products := [{ exScreen with stock := 2 }, exBattery]
    customers := [{ id := 9, name := "Ana" }]
    sales := [exSaleCreated]
    nextSaleId := 101
    now := 51 }

/-- The sale `create exState exDtoMix 7` persists: the first item priced
from the catalog (10), the second at its explicit price (7). -/
def exSaleMix : Sale :=
  { id := 100, customerId := none, customerName := some "Luis"
    userId := 7, totalAmount := 44, paymentMethod := .CASH, createdAt := 50
    items := [{ productId := 1, quantity := 3, price := 10 },
              { productId := 2, quantity := 2, price := 7 }] }

/-- The store after `create exState exDtoMix 7`. -/
def exStateAfterMix : State :=
  { products := [{ exScreen with stock := 2 }, { exBattery with stock := 1 }]
    customers := [{ id := 9, name := "Ana" }]
    sales := [exSaleMix]
    nextSaleId := 101
    now := 51 }

/-! ## Helper lemmas -/

/-- `find?` over a filtered list agrees with `find?` over the original list
whenever the search predicate implies the filter predicate. -/
theorem find?_filter_of_imp {α : Type} (xs : List α) (p q : α → Bool)
    (h : ∀ a, p a = true → q a = true) :
    (xs.filter q).find? p = xs.find? p := by
  induction xs with
  | nil => rfl
  | cons a as ih =>
    by_cases hq : q a = true
    · by_cases hp : p a = true
      · simp [List.filter_cons, hq, List.find?_cons, hp]
      · simp only [List.filter_cons, hq, if_true, List.find?_cons,
          Bool.not_eq_true] at *
        simp [List.find?_cons, hp, ih]
    · have hp : p a = false := by
        cases hpa : p a with
        | false => rfl
        | true => exact absurd (h a hpa) hq
      simp [List.filter_cons, hq, List.find?_cons, hp, ih]

/-- In a product list with pairwise-distinct ids, `find?` by id returns the
member itself. -/
theorem find?_id_of_nodup {ps : List Product}
    (hnd : (ps.map Product.id).Nodup) {p : Product} (hp : p ∈ ps) :
    ps.find? (fun q => q.id == p.id) = some p := by
  induction ps with
  | nil => cases hp
  | cons a as ih =>
    simp only [List.map_cons, List.nodup_cons] at hnd
    rcases List.mem_cons.1 hp with rfl | hmem
    · simp
    · have hne : a.id ≠ p.id := by
        intro he
        exact hnd.1 (he ▸ List.mem_map_of_mem Product.id hmem)
      have : (a.id == p.id) = false := beq_eq_false_iff_ne.2 hne
      simp [List.find?_cons, this, ih hnd.2 hmem]

/-! ## Invoice derivation (C8) -/

/-- C8: for every persisted sale, `getInvoice` derives
`subtotal = totalAmount / 1.18` and `tax = totalAmount - subtotal` from the
tax-inclusive `totalAmount` at the fixed 18% rate; in particular a sale
with `totalAmount` 118 yields subtotal 100 and tax 18. -/
theorem invoice_tax_derivation (s : State) (id : Nat) (sale : Sale)
    (h : findSale s id = some sale) :
    ∃ inv, generateInvoice s id = .ok inv ∧
      inv.subtotal = sale.totalAmount / (1.18 : Rat) ∧
      inv.tax = sale.totalAmount - inv.subtotal ∧
      (sale.totalAmount = 118 → inv.subtotal = 100 ∧ inv.tax = 18) := by
  refine ⟨_, by rw [generateInvoice, h], rfl, rfl, ?_⟩
  intro h118
  simp only [h118]
  constructor
  · norm_num
  · norm_num

/-- Witness for C8 at the fixture sale with total 118. -/
theorem invoice_tax_derivation_witness :
    ∃ inv, generateInvoice exSaleState 41 = .ok inv ∧
      inv.subtotal = exSale.totalAmount / (1.18 : Rat) ∧
      inv.tax = exSale.totalAmount - inv.subtotal ∧
      (exSale.totalAmount = 118 → inv.subtotal = 100 ∧ inv.tax = 18) :=
  invoice_tax_derivation exSaleState 41 exSale (by decide)

/-! ## Stock-ledger adjustment guard (C5) -/

/-- C5: the ledger adjustment never brings a product's stock below zero.
When the requested adjustment would leave the stock negative the operation
fails with an error (reporting the current stock) and the store is
untouched — no clamping, no negative value stored; otherwise the product's
row holds exactly `stock + quantity` (which is then non-negative) and every
other row is untouched. -/
theorem updateStock_never_negative (s : State) (id : Nat) (q : Int)
    (product : Product) (h : findProduct s id = some product) :
    (product.stock + q < 0 →
      updateStock s id q = (s, .error (.stockWouldGoNegative product.stock))) ∧
    (s.WF → ¬ product.stock + q < 0 →
      ∀ p' ∈ (updateStock s id q).1.products,
        (p'.id = id → p'.stock = product.stock + q ∧ 0 ≤ p'.stock) ∧
        (p'.id ≠ id → p' ∈ s.products)) := by
  constructor
  · intro hneg
    simp [updateStock, h, hneg]
  · intro hWF hpos p' hp'
    simp only [updateStock, h, if_neg hpos] at hp'
    rcases List.mem_map.1 hp' with ⟨p, hpmem, rfl⟩
    by_cases hid : (p.id == id) = true
    · have hpid : p.id = id := by simpa using hid
      have hfind : s.products.find? (fun r => r.id == p.id) = some p :=
        find?_id_of_nodup hWF hpmem
      have hpp : p = product := by
        have := hfind
        rw [hpid] at this
        rw [findProduct, this] at h
        exact Option.some.inj h
      subst hpp
      simp only [hid, if_true]
      refine ⟨fun _ => ⟨trivial, by omega⟩, fun hne => absurd hpid hne⟩
    · simp only [hid, if_false]
      have hpid : p.id ≠ id := by simpa using hid
      exact ⟨fun he => absurd he hpid, fun _ => hpmem⟩

/-- Witness for C5: adjusting the fixture product (stock 5) by −9 fails and
leaves the store untouched; adjusting by −3 stores exactly 2. -/
theorem updateStock_never_negative_witness :
    (exScreen.stock + (-9) < 0 →
      updateStock exState 1 (-9) =
        (exState, .error (.stockWouldGoNegative exScreen.stock))) ∧
    (exState.WF → ¬ exScreen.stock + (-3) < 0 →
      ∀ p' ∈ (updateStock exState 1 (-3)).1.products,
        (p'.id = 1 → p'.stock = exScreen.stock + (-3) ∧ 0 ≤ p'.stock) ∧
        (p'.id ≠ 1 → p' ∈ exState.products)) :=
  ⟨(updateStock_never_negative exState 1 (-9) exScreen (by decide)).1,
   (updateStock_never_negative exState 1 (-3) exScreen (by decide)).2⟩

/-! ## Sale update immutability and frame (C7) -/

/-- C7: for an existing sale, a patch carrying an `items` collection is
rejected with the immutability error and the store is untouched; a
successful update leaves the sale's items, `totalAmount`, issuing user and
creation timestamp unchanged (both in the returned sale and in every stored
row), touching only the customer reference/name and payment method. -/
theorem update_items_immutable (s : State) (id : Nat) (patch : UpdateSaleDto)
    (sale : Sale) (h : findSale s id = some sale) :
    (patch.items.isSome → update s id patch = (s, .error .itemsImmutable)) ∧
    (∀ s' sale', update s id patch = (s', .ok sale') →
      sale'.items = sale.items ∧ sale'.totalAmount = sale.totalAmount ∧
      sale'.userId = sale.userId ∧ sale'.createdAt = sale.createdAt ∧
      s'.products = s.products ∧
      s'.sales.map (fun sa => (sa.items, sa.totalAmount, sa.userId, sa.createdAt)) =
        s.sales.map (fun sa => (sa.items, sa.totalAmount, sa.userId, sa.createdAt))) := by
  have hframe : ∀ sa : Sale,
      ((applyPatch sa patch).items, (applyPatch sa patch).totalAmount,
        (applyPatch sa patch).userId, (applyPatch sa patch).createdAt) =
      (sa.items, sa.totalAmount, sa.userId, sa.createdAt) := fun _ => rfl
  constructor
  · intro hi
    simp only [update, h, hi, if_true]
  · intro s' sale' hupd
    simp only [update, h] at hupd
    by_cases hi : patch.items.isSome
    · rw [if_pos hi] at hupd
      exact absurd (congrArg Prod.snd hupd) (by simp)
    · rw [if_neg hi] at hupd
      have hmap : (s.sales.map (fun sa =>
            if sa.id == id then applyPatch sa patch else sa)).map
              (fun sa => (sa.items, sa.totalAmount, sa.userId, sa.createdAt)) =
          s.sales.map (fun sa => (sa.items, sa.totalAmount, sa.userId, sa.createdAt)) := by
        rw [List.map_map]
        refine List.map_congr_left (fun sa _ => ?_)
        by_cases hsa : sa.id = id
        · simp [hsa, applyPatch]
        · simp [hsa]
      rcases hcid : patch.customerId with _ | cid
      · rw [hcid] at hupd
        have hs' : s' = { s with sales := s.sales.map (fun sa =>
            if sa.id == id then applyPatch sa patch else sa) } :=
          (congrArg Prod.fst hupd).symm
        have hsale' : sale' = applyPatch sale patch := by
          have := congrArg Prod.snd hupd
          simpa using this.symm
        subst hs'; subst hsale'
        exact ⟨rfl, rfl, rfl, rfl, rfl, hmap⟩
      · rw [hcid] at hupd
        rcases hfc : findCustomer s cid with _ | c
        · simp only [hfc] at hupd
          exact absurd (congrArg Prod.snd hupd) (by simp)
        · simp only [hfc] at hupd
          have hs' : s' = { s with sales := s.sales.map (fun sa =>
              if sa.id == id then applyPatch sa patch else sa) } :=
            (congrArg Prod.fst hupd).symm
          have hsale' : sale' = applyPatch sale patch := by
            have := congrArg Prod.snd hupd
            simpa using this.symm
          subst hs'; subst hsale'
          exact ⟨rfl, rfl, rfl, rfl, rfl, hmap⟩

/-- Witness for C7: patching the fixture sale's items is rejected; patching
its payment method preserves items, total, user and timestamp. -/
theorem update_items_immutable_witness :
    ((⟨none, none, none, some []⟩ : UpdateSaleDto).items.isSome →
      update exSaleState 41 ⟨none, none, none, some []⟩ =
        (exSaleState, .error .itemsImmutable)) ∧
    (∀ s' sale',
      update exSaleState 41 ⟨none, none, some .YAPE, none⟩ = (s', .ok sale') →
      sale'.items = exSale.items ∧ sale'.totalAmount = exSale.totalAmount ∧
      sale'.userId = exSale.userId ∧ sale'.createdAt = exSale.createdAt ∧
      s'.products = exSaleState.products ∧
      s'.sales.map (fun sa => (sa.items, sa.totalAmount, sa.userId, sa.createdAt)) =
        exSaleState.sales.map (fun sa => (sa.items, sa.totalAmount, sa.userId, sa.createdAt))) :=
  ⟨(update_items_immutable exSaleState 41 ⟨none, none, none, some []⟩ exSale
      (by decide)).1,
   (update_items_immutable exSaleState 41 ⟨none, none, some .YAPE, none⟩ exSale
      (by decide)).2⟩

/-! ## Inversion of a successful create -/

/-- A successful `create` decomposes into: non-empty items, resolved
customer, passed batch-count check, passed stock check, and the committed
transaction's sale and store. -/
theorem createChecked_ok_inv {s : State} {dto : CreateSaleDto} {userId : Nat}
    {s' : State} {sale : Sale}
    (h : createChecked s dto userId = .ok (s', sale)) :
    ∃ customerId customerName items totalAmount,
      dto.items.isEmpty = false ∧
      resolveCustomer s dto = .ok (customerId, customerName) ∧
      (findProductsIn s (dto.items.map (fun it => it.productId))).length =
        (dto.items.map (fun it => it.productId)).length ∧
      checkStockAndPrice (findProductsIn s (dto.items.map (fun it => it.productId)))
        dto.items = .ok (items, totalAmount) ∧
      sale = { id := s.nextSaleId, customerId := customerId,
               customerName := customerName, userId := userId,
               totalAmount := totalAmount, paymentMethod := dto.paymentMethod,
               createdAt := s.now, items := items } ∧
      s' = { s with
               sales := sale :: s.sales
               products := applyDecrements s.products sale.items
               nextSaleId := s.nextSaleId + 1
               now := s.now + 1 } := by
  rw [createChecked] at h
  by_cases hemp : dto.items.isEmpty
  · rw [if_pos hemp] at h
    exact absurd h (by simp)
  · rw [if_neg hemp] at h
    rcases hres : resolveCustomer s dto with e | ⟨cid, cname⟩
    · simp [hres] at h
    · simp only [hres] at h
      by_cases hlen : (findProductsIn s (dto.items.map (fun it => it.productId))).length ≠
          (dto.items.map (fun it => it.productId)).length
      · rw [if_pos hlen] at h
        exact absurd h (by simp)
      · rw [if_neg hlen] at h
        rcases hchk : checkStockAndPrice
            (findProductsIn s (dto.items.map (fun it => it.productId))) dto.items
          with e | ⟨items, total⟩
        · simp [hchk] at h
        · simp only [hchk, Except.ok.injEq, Prod.mk.injEq] at h
          refine ⟨cid, cname, items, total,
            (by simpa using hemp), rfl, not_not.1 hlen, hchk, h.2.symm, ?_⟩
          rw [← h.1, ← h.2]

/-! ## Customer resolution on create (C9) -/

/-- C9 (as stated) is false on the code: the fixed placeholder label stored
when neither `customerId` nor `customerName` is supplied is the Spanish
string `'Cliente no registrado'`, not the English string
`"unregistered customer"`. -/
theorem placeholder_label_counterexample :
    (create exState exDtoNoCustomer 7).2.toOption.map Sale.customerName =
      some (some "Cliente no registrado") ∧
    (create exState exDtoNoCustomer 7).2.toOption.map Sale.customerName ≠
      some (some "unregistered customer") := by
  constructor
  · rfl
  · decide

/-- C9 (amended to the code's placeholder literal): when the candidate
carries a `customerId` that does not resolve, `create` fails with the
customer `NotFound` error and the store is untouched; when the candidate
carries neither `customerId` nor `customerName`, a created sale stores the
fixed placeholder label `'Cliente no registrado'` ("unregistered customer"
in Spanish) as its customer name. -/
theorem create_customer_resolution :
    (∀ s dto uid cid, dto.items ≠ [] → dto.customerId = some cid →
      findCustomer s cid = none →
      create s dto uid = (s, .error (.customerNotFound cid))) ∧
    (∀ s dto uid s' sale, dto.customerId = none → dto.customerName = none →
      create s dto uid = (s', .ok sale) →
      sale.customerName = some placeholderCustomerName) := by
  constructor
  · intro s dto uid cid hne hcid hfc
    have hemp : dto.items.isEmpty = false := by
      cases hdi : dto.items with
      | nil => exact absurd hdi hne
      | cons a as => rfl
    have hres : resolveCustomer s dto = .error (.customerNotFound cid) := by
      rw [resolveCustomer]
      simp only [hcid, hfc]
    have hck : createChecked s dto uid = .error (.customerNotFound cid) := by
      rw [createChecked]
      simp only [hemp, Bool.false_eq_true, if_false, hres]
    rw [create, hck]
  · intro s dto uid s' sale hcid hname hupd
    rw [create] at hupd
    rcases hck : createChecked s dto uid with e | ⟨s1, sale1⟩
    · rw [hck] at hupd
      exact absurd (congrArg Prod.snd hupd) (by simp)
    · rw [hck] at hupd
      have hsale : sale1 = sale := by
        have := congrArg Prod.snd hupd
        simpa using this
      obtain ⟨cid, cname, items, total, -, hres, -, -, hsaleEq, -⟩ :=
        createChecked_ok_inv hck
      have hres' : resolveCustomer s dto = .ok (none, some placeholderCustomerName) := by
        rw [resolveCustomer]
        simp only [hcid, hname]
      rw [hres'] at hres
      have hcname : cname = some placeholderCustomerName := by
        have := Except.ok.inj hres
        exact (congrArg Prod.snd this).symm
      rw [← hsale, hsaleEq, hcname]

/-- Witness for the amended C9, at the fixture store: an unresolvable
customer id fails with `NotFound`; a walk-in sale stores the placeholder. -/
theorem create_customer_resolution_witness :
    create exState exDtoBadCustomer 7 = (exState, .error (.customerNotFound 77)) ∧
    ((create exState exDtoNoCustomer 7).2.toOption.map Sale.customerName =
      some (some placeholderCustomerName)) := by
  constructor
  · exact create_customer_resolution.1 exState exDtoBadCustomer 7 77
      (by decide) rfl (by decide)
  · have hc : create exState exDtoNoCustomer 7 =
        (exStateAfterCreate, .ok exSaleCreated) := by
      norm_num [create, createChecked, resolveCustomer, checkStockAndPrice,
        findProductsIn, batchLookup, applyDecrements, decrementStock,
        findProduct, findCustomer, exState, exDtoNoCustomer, exScreen,
        exBattery, exStateAfterCreate, exSaleCreated, placeholderCustomerName,
        List.find?_cons_of_pos, List.find?_cons_of_neg, List.filter, List.foldl]
    have := create_customer_resolution.2 exState exDtoNoCustomer 7
      exStateAfterCreate exSaleCreated rfl rfl hc
    rw [hc]
    simp [Except.toOption, this]

/-! ## Duplicate product ids in a candidate (C10) -/

/-- C10: a candidate that references the same existing product in two items
fails with the "one or more products do not exist" invalid-input error
(`'Uno o más productos no existen'`): the batch lookup returns the product
once, and its count is compared against the raw, non-deduplicated item
count. Nothing is created and no stock changes. -/
theorem duplicate_product_ids_rejected :
    (findProduct exState 1).isSome = true ∧
    create exState exDtoDup 7 = (exState, .error .productsDoNotExist) := by
  constructor
  · rfl
  · rfl

/-! ## Lemmas about the stock-check / pricing loop -/

/-- The loop stops at the first item whose stock check fails and reports
that item's product name, available stock and requested quantity; the items
after it are never examined. -/
theorem checkStockAndPrice_first_fail (products : List Product)
    (pre : List CreateSaleItemDto) (bad : CreateSaleItemDto)
    (post : List CreateSaleItemDto) (pb : Product)
    (hpre : ∀ it ∈ pre, ∃ p, batchLookup products it.productId = some p ∧
      ¬ p.stock < (it.quantity : Int))
    (hbad : batchLookup products bad.productId = some pb)
    (hlt : pb.stock < (bad.quantity : Int)) :
    checkStockAndPrice products (pre ++ bad :: post) =
      .error (.insufficientStock pb.name pb.stock bad.quantity) := by
  induction pre with
  | nil =>
    simp only [List.nil_append, checkStockAndPrice, hbad, if_pos hlt]
  | cons a as ih =>
    obtain ⟨pa, hpa, hok⟩ := hpre a (List.mem_cons_self a as)
    have ih' := ih (fun it hit => hpre it (List.mem_cons_of_mem a hit))
    simp only [List.cons_append, checkStockAndPrice, hpa, if_neg hok, List.append_eq, ih']

/-- A successful loop run resolves every item to the same product id and
quantity it was given. -/
theorem checkStockAndPrice_ok_shape (products : List Product) :
    ∀ (dtoItems : List CreateSaleItemDto) (items : List SaleItem) (total : Rat),
      checkStockAndPrice products dtoItems = .ok (items, total) →
      items.map (fun it => (it.productId, it.quantity)) =
        dtoItems.map (fun it => (it.productId, it.quantity)) := by
  intro dtoItems
  induction dtoItems with
  | nil =>
    intro items total h
    simp only [checkStockAndPrice, Except.ok.injEq, Prod.mk.injEq] at h
    rw [← h.1]
    rfl
  | cons a as ih =>
    intro items total h
    rw [checkStockAndPrice] at h
    rcases hla : batchLookup products a.productId with _ | pa
    · simp only [hla] at h
      exact absurd h (by simp)
    · simp only [hla] at h
      by_cases hst : pa.stock < (a.quantity : Int)
      · rw [if_pos hst] at h
        exact absurd h (by simp)
      · rw [if_neg hst] at h
        rcases hrest : checkStockAndPrice products as with e | ⟨items', total'⟩
        · simp [hrest] at h
        · simp only [hrest, Except.ok.injEq, Prod.mk.injEq] at h
          rw [← h.1, List.map_cons, List.map_cons, ih items' total' hrest]

/-- A successful loop run found, for every item, a product in the batch with
stock at least the requested quantity. -/
theorem checkStockAndPrice_ok_stock (products : List Product) :
    ∀ (dtoItems : List CreateSaleItemDto) (items : List SaleItem) (total : Rat),
      checkStockAndPrice products dtoItems = .ok (items, total) →
      ∀ it ∈ items, ∃ p, batchLookup products it.productId = some p ∧
        ¬ p.stock < (it.quantity : Int) := by
  intro dtoItems
  induction dtoItems with
  | nil =>
    intro items total h
    simp only [checkStockAndPrice, Except.ok.injEq, Prod.mk.injEq] at h
    rw [← h.1]
    intro it hit
    cases hit
  | cons a as ih =>
    intro items total h
    rw [checkStockAndPrice] at h
    rcases hla : batchLookup products a.productId with _ | pa
    · simp only [hla] at h
      exact absurd h (by simp)
    · simp only [hla] at h
      by_cases hst : pa.stock < (a.quantity : Int)
      · rw [if_pos hst] at h
        exact absurd h (by simp)
      · rw [if_neg hst] at h
        rcases hrest : checkStockAndPrice products as with e | ⟨items', total'⟩
        · simp [hrest] at h
        · simp only [hrest, Except.ok.injEq, Prod.mk.injEq] at h
          rw [← h.1]
          intro it hit
          rcases List.mem_cons.1 hit with rfl | hmem
          · exact ⟨pa, hla, hst⟩
          · exact ih items' total' hrest it hmem

/-- A successful loop run accumulates exactly the specification's total:
`quantity * unitPrice` summed in input order, with the explicit price used
when given (and nonzero) and the catalog price otherwise. -/
theorem checkStockAndPrice_ok_total (s : State) (products : List Product) :
    ∀ (dtoItems : List CreateSaleItemDto) (items : List SaleItem) (total : Rat),
      (∀ it ∈ dtoItems, it.price ≠ some 0) →
      (∀ it ∈ dtoItems, batchLookup products it.productId = findProduct s it.productId) →
      checkStockAndPrice products dtoItems = .ok (items, total) →
      total = (dtoItems.map (fun it => (it.quantity : Rat) * specUnitPrice s it)).sum := by
  intro dtoItems
  induction dtoItems with
  | nil =>
    intro items total _ _ h
    simp only [checkStockAndPrice, Except.ok.injEq, Prod.mk.injEq] at h
    rw [← h.2]
    rfl
  | cons a as ih =>
    intro items total hprice hlook h
    rw [checkStockAndPrice] at h
    rcases hla : batchLookup products a.productId with _ | pa
    · simp only [hla] at h
      exact absurd h (by simp)
    · simp only [hla] at h
      by_cases hst : pa.stock < (a.quantity : Int)
      · rw [if_pos hst] at h
        exact absurd h (by simp)
      · rw [if_neg hst] at h
        rcases hrest : checkStockAndPrice products as with e | ⟨items', total'⟩
        · simp [hrest] at h
        · simp only [hrest, Except.ok.injEq, Prod.mk.injEq] at h
          have htot' := ih items' total'
            (fun it hit => hprice it (List.mem_cons_of_mem a hit))
            (fun it hit => hlook it (List.mem_cons_of_mem a hit)) hrest
          rw [← h.2, List.map_cons, List.sum_cons, ← htot']
          congr 1
          rcases hap : a.price with _ | p
          · have hfp : findProduct s a.productId = some pa := by
              rw [← hlook a (List.mem_cons_self a as), hla]
            simp only [hap, specUnitPrice, hfp, Option.map_some, Option.getD_some]
            exact mul_comm _ _
          · have hp0 : ¬ p = 0 := by
              intro he
              exact hprice a (List.mem_cons_self a as) (by rw [hap, he])
            simp only [hap, specUnitPrice, if_neg hp0]
            exact mul_comm _ _

/-! ## Lemmas about the batch lookup and the stock writes -/

/-- Looking a product up in the batch result agrees with looking it up in
the store, whenever its id is among the requested ids. -/
theorem batchLookup_findProductsIn (s : State) (pids : List Nat) (pid : Nat)
    (hpid : pid ∈ pids) :
    batchLookup (findProductsIn s pids) pid = findProduct s pid := by
  unfold batchLookup findProductsIn findProduct
  apply find?_filter_of_imp
  intro a ha
  have hid : a.id = pid := by simpa using ha
  rw [hid]
  simpa using hpid

/-- On a store with unique product ids, the batch-count check passing means
the requested id list has no duplicates: the batch returns each existing
product once, so a duplicated id would make the counts differ. -/
theorem nodup_of_count_check {s : State} (hWF : s.WF) (pids : List Nat)
    (hlen : (findProductsIn s pids).length = pids.length) : pids.Nodup := by
  have hsub : List.Sublist (findProductsIn s pids) s.products := List.filter_sublist _
  have hndF : ((findProductsIn s pids).map Product.id).Nodup :=
    hWF.sublist (hsub.map Product.id)
  have hsubset : (findProductsIn s pids).map Product.id ⊆ pids.dedup := by
    intro a ha
    rcases List.mem_map.1 ha with ⟨p, hpF, rfl⟩
    have hc : pids.contains p.id = true := (List.mem_filter.1 hpF).2
    exact List.mem_dedup.2 (by simpa using hc)
  have hsp : List.Subperm ((findProductsIn s pids).map Product.id) pids.dedup :=
    List.subperm_of_subset hndF hsubset
  have h1 : pids.length ≤ pids.dedup.length := by
    have := hsp.length_le
    rw [List.length_map, hlen] at this
    exact this
  have h2 : pids.dedup = pids :=
    (List.dedup_sublist pids).eq_of_length
      (le_antisymm (List.dedup_sublist pids).length_le h1)
  exact h2 ▸ List.nodup_dedup pids

/-- A single decrement write touches no product id. -/
theorem map_id_decrementStock (ps : List Product) (pid : Nat) (q : Nat) :
    (decrementStock ps pid q).map Product.id = ps.map Product.id := by
  unfold decrementStock
  rw [List.map_map]
  refine List.map_congr_left fun p _ => ?_
  by_cases h : (p.id == pid) = true
  · rw [Function.comp_apply, if_pos h]
  · rw [Function.comp_apply, if_neg h]

/-- A single increment write touches no product id. -/
theorem map_id_incrementStock (ps : List Product) (pid : Nat) (q : Nat) :
    (incrementStock ps pid q).map Product.id = ps.map Product.id := by
  unfold incrementStock
  rw [List.map_map]
  refine List.map_congr_left fun p _ => ?_
  by_cases h : (p.id == pid) = true
  · rw [Function.comp_apply, if_pos h]
  · rw [Function.comp_apply, if_neg h]

/-- The decrement loop touches no product id. -/
theorem map_id_applyDecrements (items : List SaleItem) :
    ∀ ps : List Product,
      (applyDecrements ps items).map Product.id = ps.map Product.id := by
  induction items with
  | nil => intro ps; rfl
  | cons it rest ih =>
    intro ps
    have hstep : applyDecrements ps (it :: rest) =
        applyDecrements (decrementStock ps it.productId it.quantity) rest := rfl
    rw [hstep, ih, map_id_decrementStock]

/-- The increment loop touches no product id. -/
theorem map_id_applyIncrements (items : List SaleItem) :
    ∀ ps : List Product,
      (applyIncrements ps items).map Product.id = ps.map Product.id := by
  induction items with
  | nil => intro ps; rfl
  | cons it rest ih =>
    intro ps
    have hstep : applyIncrements ps (it :: rest) =
        applyIncrements (incrementStock ps it.productId it.quantity) rest := rfl
    rw [hstep, ih, map_id_incrementStock]

/-- Restoring stock never drives any counter negative. -/
theorem applyIncrements_nonneg (items : List SaleItem) :
    ∀ ps : List Product, (∀ p ∈ ps, 0 ≤ p.stock) →
      ∀ p ∈ applyIncrements ps items, 0 ≤ p.stock := by
  induction items with
  | nil => exact fun ps h => h
  | cons it rest ih =>
    intro ps h
    have hstep : ∀ p' ∈ incrementStock ps it.productId it.quantity,
        0 ≤ p'.stock := by
      intro p' hp'
      rw [incrementStock] at hp'
      rcases List.mem_map.1 hp' with ⟨p, hp, rfl⟩
      by_cases hid : (p.id == it.productId) = true
      · rw [if_pos hid]
        have := h p hp
        show 0 ≤ p.stock + (it.quantity : Int)
        omega
      · rw [if_neg hid]
        exact h p hp
    exact ih _ hstep

/-- Decrementing stock, one write per item and at most one item per product,
keeps every counter non-negative when every touched product had stock at
least the requested quantity. -/
theorem applyDecrements_nonneg (items : List SaleItem) :
    ∀ ps : List Product,
      (items.map SaleItem.productId).Nodup →
      (∀ p ∈ ps, 0 ≤ p.stock) →
      (∀ it ∈ items, ∀ p ∈ ps, p.id = it.productId →
        (it.quantity : Int) ≤ p.stock) →
      ∀ p ∈ applyDecrements ps items, 0 ≤ p.stock := by
  induction items with
  | nil => exact fun ps _ h _ => h
  | cons it rest ih =>
    intro ps hnd h hstock
    have hnd' : (rest.map SaleItem.productId).Nodup := by
      rw [List.map_cons, List.nodup_cons] at hnd
      exact hnd.2
    have hnotin : it.productId ∉ rest.map SaleItem.productId := by
      rw [List.map_cons, List.nodup_cons] at hnd
      exact hnd.1
    have hnn' : ∀ p' ∈ decrementStock ps it.productId it.quantity,
        0 ≤ p'.stock := by
      intro p' hp'
      rw [decrementStock] at hp'
      rcases List.mem_map.1 hp' with ⟨p, hp, rfl⟩
      by_cases hid : (p.id == it.productId) = true
      · rw [if_pos hid]
        have hge := hstock it (List.mem_cons_self it rest) p hp (by simpa using hid)
        show 0 ≤ p.stock - (it.quantity : Int)
        omega
      · rw [if_neg hid]
        exact h p hp
    have hstock' : ∀ it' ∈ rest, ∀ p' ∈ decrementStock ps it.productId it.quantity,
        p'.id = it'.productId → (it'.quantity : Int) ≤ p'.stock := by
      intro it' hit' p' hp' hid'
      rw [decrementStock] at hp'
      rcases List.mem_map.1 hp' with ⟨p, hp, rfl⟩
      by_cases hid : (p.id == it.productId) = true
      · exfalso
        rw [if_pos hid] at hid'
        have h1 : p.id = it.productId := by simpa using hid
        have h2 : p.id = it'.productId := hid'
        exact hnotin (h1 ▸ h2 ▸ List.mem_map_of_mem SaleItem.productId hit')
      · rw [if_neg hid] at hid' ⊢
        exact hstock it' (List.mem_cons_of_mem it hit') p hp hid'
    exact ih _ hnd' hnn' hstock'

/-- Incrementing a product by the quantity just decremented restores the
row list exactly. -/
theorem incrementStock_decrementStock (ps : List Product) (pid : Nat) (q : Nat) :
    incrementStock (decrementStock ps pid q) pid q = ps := by
  unfold incrementStock decrementStock
  rw [List.map_map]
  have hid : ∀ p : Product,
      ((fun p => if (p.id == pid) = true then
          { p with stock := p.stock + (q : Int) } else p) ∘
        (fun p => if (p.id == pid) = true then
          { p with stock := p.stock - (q : Int) } else p)) p = p := by
    intro p
    by_cases h : (p.id == pid) = true
    · simp only [Function.comp_apply, if_pos h]
      have : p.stock - (q : Int) + (q : Int) = p.stock := by omega
      rw [this]
    · simp only [Function.comp_apply, if_neg h, if_neg h]
  rw [List.map_congr_left (fun p _ => hid p)]
  simp

/-- An increment write commutes with a decrement write (they only shift the
stock counters, never the ids). -/
theorem incrementStock_comm_decrementStock (ps : List Product)
    (pid q pid' q' : Nat) :
    incrementStock (decrementStock ps pid' q') pid q =
      decrementStock (incrementStock ps pid q) pid' q' := by
  unfold incrementStock decrementStock
  rw [List.map_map, List.map_map]
  refine List.map_congr_left fun p _ => ?_
  by_cases h1 : (p.id == pid') = true <;> by_cases h2 : (p.id == pid) = true
  · simp only [Function.comp_apply, if_pos h1, if_pos h2]
    have : p.stock - (q' : Int) + (q : Int) = p.stock + (q : Int) - (q' : Int) := by
      omega
    rw [this]
  · simp only [Function.comp_apply, if_pos h1, if_neg h2]
  · simp only [Function.comp_apply, if_neg h1, if_pos h2]
  · simp only [Function.comp_apply, if_neg h1, if_neg h2]

/-- An increment write commutes past a whole decrement loop. -/
theorem incrementStock_applyDecrements (items : List SaleItem) :
    ∀ (ps : List Product) (pid q : Nat),
      incrementStock (applyDecrements ps items) pid q =
        applyDecrements (incrementStock ps pid q) items := by
  induction items with
  | nil => intro ps pid q; rfl
  | cons it rest ih =>
    intro ps pid q
    have h1 : applyDecrements ps (it :: rest) =
        applyDecrements (decrementStock ps it.productId it.quantity) rest := rfl
    have h2 : applyDecrements (incrementStock ps pid q) (it :: rest) =
        applyDecrements (decrementStock (incrementStock ps pid q)
          it.productId it.quantity) rest := rfl
    rw [h1, h2, ih, incrementStock_comm_decrementStock]

/-- The increment loop of `remove` undoes the decrement loop of `create`,
item by item. -/
theorem applyIncrements_applyDecrements (items : List SaleItem) :
    ∀ ps : List Product, applyIncrements (applyDecrements ps items) items = ps := by
  induction items with
  | nil => intro ps; rfl
  | cons it rest ih =>
    intro ps
    have h1 : applyDecrements ps (it :: rest) =
        applyDecrements (decrementStock ps it.productId it.quantity) rest := rfl
    have h2 : ∀ qs : List Product, applyIncrements qs (it :: rest) =
        applyIncrements (incrementStock qs it.productId it.quantity) rest :=
      fun qs => rfl
    rw [h1, h2, incrementStock_applyDecrements, incrementStock_decrementStock, ih]

/-! ## Create fails on the first insufficient-stock item (C1, C6) -/

/-- Reaching the stock loop (non-empty items, resolved customer, passed
batch-count check) with a first failing item makes the whole `create` fail
with that item's insufficient-stock error, returning the untouched store. -/
theorem create_insufficient_stock_fails (s : State) (dto : CreateSaleDto)
    (userId : Nat) (cust : Option Nat × Option String)
    (pre post : List CreateSaleItemDto) (bad : CreateSaleItemDto) (pb : Product)
    (hitems : dto.items = pre ++ bad :: post)
    (hres : resolveCustomer s dto = .ok cust)
    (hlen : (findProductsIn s (dto.items.map (fun it => it.productId))).length =
      (dto.items.map (fun it => it.productId)).length)
    (hpre : ∀ it ∈ pre, ∃ p, findProduct s it.productId = some p ∧
      ¬ p.stock < (it.quantity : Int))
    (hbad : findProduct s bad.productId = some pb)
    (hlt : pb.stock < (bad.quantity : Int)) :
    create s dto userId =
      (s, .error (.insufficientStock pb.name pb.stock bad.quantity)) := by
  have hemp : dto.items.isEmpty = false := by
    rw [hitems]; cases pre <;> rfl
  have hsub : ∀ it : CreateSaleItemDto, it ∈ pre ++ bad :: post → it ∈ dto.items := by
    rw [hitems]; exact fun it h => h
  have hmem : ∀ it ∈ dto.items, it.productId ∈ dto.items.map (fun it => it.productId) :=
    fun it hit => List.mem_map_of_mem (fun it => it.productId) hit
  have hchk : checkStockAndPrice
      (findProductsIn s (dto.items.map (fun it => it.productId))) dto.items =
      .error (.insufficientStock pb.name pb.stock bad.quantity) := by
    rw [hitems]
    apply checkStockAndPrice_first_fail
    · intro it hit
      obtain ⟨p, hp, hge⟩ := hpre it hit
      refine ⟨p, ?_, hge⟩
      rw [← hitems,
        batchLookup_findProductsIn s _ it.productId
          (hmem it (hsub it (List.mem_append_left _ hit)))]
      exact hp
    · rw [← hitems,
        batchLookup_findProductsIn s _ bad.productId
          (hmem bad (hsub bad (List.mem_append_right _ (List.mem_cons_self bad post))))]
      exact hbad
    · exact hlt
  have hck : createChecked s dto userId =
      .error (.insufficientStock pb.name pb.stock bad.quantity) := by
    rw [createChecked]
    simp only [hemp, Bool.false_eq_true, if_false, hres]
    rw [if_neg (not_not_intro hlen)]
    simp only [hchk]
  simp only [create, hck]

/-- C1: `create` is all-or-nothing. Any failing run returns the caller's
store exactly as it was (no `Sale` row, no stock change); in particular a
run whose stock check fails on some item `bad` — every earlier item having
passed its check — fails, with the store unchanged, regardless of the items
after `bad`. -/
theorem create_atomicity :
    (∀ s dto uid s' e, create s dto uid = (s', .error e) → s' = s) ∧
    (∀ s dto uid cust pre bad post pb,
      dto.items = pre ++ bad :: post →
      resolveCustomer s dto = .ok cust →
      (findProductsIn s (dto.items.map (fun it => it.productId))).length =
        (dto.items.map (fun it => it.productId)).length →
      (∀ it ∈ pre, ∃ p, findProduct s it.productId = some p ∧
        ¬ p.stock < (it.quantity : Int)) →
      findProduct s bad.productId = some pb →
      pb.stock < (bad.quantity : Int) →
      (create s dto uid).1 = s ∧ ∃ e, (create s dto uid).2 = .error e) := by
  constructor
  · intro s dto uid s' e h
    rw [create] at h
    rcases hck : createChecked s dto uid with e' | ⟨s1, sale1⟩
    · rw [hck] at h
      exact (congrArg Prod.fst h).symm
    · rw [hck] at h
      exact absurd (congrArg Prod.snd h) (by simp)
  · intro s dto uid cust pre bad post pb hitems hres hlen hpre hbad hlt
    have h := create_insufficient_stock_fails s dto uid cust pre post bad pb
      hitems hres hlen hpre hbad hlt
    exact ⟨congrArg Prod.fst h,
      ⟨.insufficientStock pb.name pb.stock bad.quantity, congrArg Prod.snd h⟩⟩

/-- Witness for C1: a failing duplicate-product run returns the store
unchanged, and the fixture run whose second item over-asks fails with the
store unchanged. -/
theorem create_atomicity_witness :
    ((create exState exDtoDup 7).1 = exState) ∧
    ((create exState exDtoInsuf 7).1 = exState ∧
      ∃ e, (create exState exDtoInsuf 7).2 = .error e) := by
  constructor
  · exact create_atomicity.1 exState exDtoDup 7 exState .productsDoNotExist rfl
  · exact create_atomicity.2 exState exDtoInsuf 7
      (none, some placeholderCustomerName)
      [{ productId := 2, quantity := 1, price := none }]
      { productId := 1, quantity := 9, price := none } [] exScreen
      rfl rfl rfl
      (by
        intro it hit
        rw [List.mem_singleton] at hit
        subst hit
        exact ⟨exBattery, rfl, by decide⟩)
      rfl (by decide)

/-- C6: `create` checks items in input order; at the first item whose
product's stock is below the requested quantity it fails the entire
operation with the insufficient-stock error carrying that product's name,
available stock and requested quantity — the items after the failing one
(`post`) are arbitrary and never examined. -/
theorem create_first_insufficient_stock (s : State) (dto : CreateSaleDto)
    (uid : Nat) (cust : Option Nat × Option String)
    (pre post : List CreateSaleItemDto) (bad : CreateSaleItemDto) (pb : Product)
    (hitems : dto.items = pre ++ bad :: post)
    (hres : resolveCustomer s dto = .ok cust)
    (hlen : (findProductsIn s (dto.items.map (fun it => it.productId))).length =
      (dto.items.map (fun it => it.productId)).length)
    (hpre : ∀ it ∈ pre, ∃ p, findProduct s it.productId = some p ∧
      ¬ p.stock < (it.quantity : Int))
    (hbad : findProduct s bad.productId = some pb)
    (hlt : pb.stock < (bad.quantity : Int)) :
    create s dto uid =
      (s, .error (.insufficientStock pb.name pb.stock bad.quantity)) :=
  create_insufficient_stock_fails s dto uid cust pre post bad pb
    hitems hres hlen hpre hbad hlt

/-- Witness for C6: the fixture run fails at its second item, naming the
screen product, its available stock 5, and the requested quantity 9. -/
theorem create_first_insufficient_stock_witness :
    create exState exDtoInsuf 7 =
      (exState, .error (.insufficientStock exScreen.name exScreen.stock 9)) :=
  create_first_insufficient_stock exState exDtoInsuf 7
    (none, some placeholderCustomerName)
    [{ productId := 2, quantity := 1, price := none }]
    [] { productId := 1, quantity := 9, price := none } exScreen
    rfl rfl rfl
    (by
      intro it hit
      rw [List.mem_singleton] at hit
      subst hit
      exact ⟨exBattery, rfl, by decide⟩)
    rfl (by decide)

/-! ## Total correctness of create (C4) -/

/-- C4: the persisted sale's `totalAmount` is the sum, over the candidate's
items in input order, of `quantity * unitPrice`, where the unit price is the
item's explicit price when one is given and the product's catalog price
otherwise. (The hypothesis that no explicit price is the literal `0` mirrors
the `@IsPositive()` validator on `CreateSaleItemDto.price`: the service's
JavaScript-falsiness test `if (!item.price)` would silently replace an
explicit zero by the catalog price.) -/
theorem create_totalAmount_correct (s : State) (dto : CreateSaleDto)
    (uid : Nat) (s' : State) (sale : Sale)
    (hprice : ∀ it ∈ dto.items, it.price ≠ some 0)
    (h : create s dto uid = (s', .ok sale)) :
    sale.totalAmount = specTotal s dto := by
  rw [create] at h
  rcases hck : createChecked s dto uid with e | ⟨s1, sale1⟩
  · rw [hck] at h
    exact absurd (congrArg Prod.snd h) (by simp)
  · rw [hck] at h
    have hs : sale1 = sale := by simpa using congrArg Prod.snd h
    obtain ⟨cid, cname, items, total, -, -, -, hchk, hsaleEq, -⟩ :=
      createChecked_ok_inv hck
    have hlook : ∀ it ∈ dto.items,
        batchLookup (findProductsIn s (dto.items.map (fun it => it.productId)))
          it.productId = findProduct s it.productId :=
      fun it hit => batchLookup_findProductsIn s _ it.productId
        (List.mem_map_of_mem (fun it => it.productId) hit)
    have htot := checkStockAndPrice_ok_total s _ dto.items items total
      hprice hlook hchk
    rw [← hs, hsaleEq]
    exact htot

/-- Witness for C4 at the mixed-price fixture: total 44 = 3·10 + 2·7. -/
theorem create_totalAmount_correct_witness :
    (∀ it ∈ exDtoMix.items, it.price ≠ some 0) ∧
    exSaleMix.totalAmount = specTotal exState exDtoMix := by
  have hprice : ∀ it ∈ exDtoMix.items, it.price ≠ some 0 := by
    intro it hit
    fin_cases hit <;> simp
  refine ⟨hprice, ?_⟩
  exact create_totalAmount_correct exState exDtoMix 7 exStateAfterMix exSaleMix
    hprice
    (by norm_num [create, createChecked, resolveCustomer, checkStockAndPrice,
      findProductsIn, batchLookup, applyDecrements, decrementStock,
      findProduct, findCustomer, exState, exDtoMix, exScreen, exBattery,
      exStateAfterMix, exSaleMix, List.find?_cons_of_pos, List.find?_cons_of_neg, List.filter, List.foldl])

/-! ## Create/delete round trip (C3) -/

/-- C3: deleting a just-created sale restores the store's product rows (so
every touched product's stock) exactly to their pre-create values, and
removes the created sale row, leaving the sales exactly as before. -/
theorem create_delete_round_trip (s : State) (dto : CreateSaleDto) (uid : Nat)
    (s' : State) (sale : Sale) (h : create s dto uid = (s', .ok sale)) :
    (remove s' sale.id).2 = .ok () ∧
    (remove s' sale.id).1.products = s.products ∧
    (remove s' sale.id).1.sales = s.sales := by
  rw [create] at h
  rcases hck : createChecked s dto uid with e | ⟨s1, sale1⟩
  · rw [hck] at h
    exact absurd (congrArg Prod.snd h) (by simp)
  · rw [hck] at h
    have hs1 : s1 = s' := congrArg Prod.fst h
    have hsale : sale1 = sale := by simpa using congrArg Prod.snd h
    obtain ⟨cid, cname, items, total, -, -, -, -, -, hs'Eq⟩ :=
      createChecked_ok_inv hck
    rw [← hs1, ← hsale, hs'Eq]
    have hfind : findSale { s with
        sales := sale1 :: s.sales
        products := applyDecrements s.products sale1.items
        nextSaleId := s.nextSaleId + 1
        now := s.now + 1 } sale1.id = some sale1 := by
      rw [findSale]
      simp
    simp only [remove, hfind]
    refine ⟨trivial, ?_, ?_⟩
    · exact applyIncrements_applyDecrements sale1.items s.products
    · exact List.eraseP_cons_of_pos (by simp)

/-- Witness for C3: deleting the fixture sale restores stock 5/3 and leaves
no sale rows. -/
theorem create_delete_round_trip_witness :
    (remove exStateAfterCreate exSaleCreated.id).2 = .ok () ∧
    (remove exStateAfterCreate exSaleCreated.id).1.products = exState.products ∧
    (remove exStateAfterCreate exSaleCreated.id).1.sales = exState.sales :=
  create_delete_round_trip exState exDtoNoCustomer 7 exStateAfterCreate
    exSaleCreated
    (by norm_num [create, createChecked, resolveCustomer, checkStockAndPrice,
      findProductsIn, batchLookup, applyDecrements, decrementStock,
      findProduct, findCustomer, exState, exDtoNoCustomer, exScreen, exBattery,
      exStateAfterCreate, exSaleCreated, placeholderCustomerName,
      List.find?_cons_of_pos, List.find?_cons_of_neg, List.filter, List.foldl])

/-! ## Stock non-negativity across operation sequences (C2) -/

/-- One workflow operation preserves product-id uniqueness and stock
non-negativity. -/
theorem stepOp_preserves (s : State) (op : SaleOp)
    (hWF : s.WF) (hnn : StocksNonneg s) :
    (stepOp s op).WF ∧ StocksNonneg (stepOp s op) := by
  cases op with
  | deleteOp saleId =>
    rw [stepOp]
    rcases hfs : findSale s saleId with _ | sale
    · simp only [remove, hfs]
      exact ⟨hWF, hnn⟩
    · simp only [remove, hfs]
      constructor
      · show (List.map Product.id (applyIncrements s.products sale.items)).Nodup
        rw [map_id_applyIncrements]
        exact hWF
      · intro p hp
        exact applyIncrements_nonneg sale.items s.products hnn p hp
  | createOp dto uid =>
    rw [stepOp]
    rcases hck : createChecked s dto uid with e | ⟨s1, sale1⟩
    · simp only [create, hck]
      exact ⟨hWF, hnn⟩
    · simp only [create, hck]
      obtain ⟨cid, cname, items, total, hemp, hres, hlen, hchk, hsaleEq, hs1Eq⟩ :=
        createChecked_ok_inv hck
      have hsi : sale1.items = items := by rw [hsaleEq]
      have hshape := checkStockAndPrice_ok_shape _ dto.items items total hchk
      have hpids : items.map SaleItem.productId =
          dto.items.map (fun it => it.productId) := by
        have := congrArg (List.map Prod.fst) hshape
        simpa [List.map_map, Function.comp] using this
      have hnd : (items.map SaleItem.productId).Nodup := by
        rw [hpids]
        exact nodup_of_count_check hWF _ hlen
      have hstock : ∀ it ∈ items, ∀ p ∈ s.products, p.id = it.productId →
          (it.quantity : Int) ≤ p.stock := by
        intro it hit p hp hpid
        obtain ⟨pb, hlb, hge⟩ :=
          checkStockAndPrice_ok_stock _ dto.items items total hchk it hit
        have hmem : it.productId ∈ dto.items.map (fun it => it.productId) := by
          rw [← hpids]
          exact List.mem_map_of_mem SaleItem.productId hit
        rw [batchLookup_findProductsIn s _ it.productId hmem] at hlb
        have hfp : s.products.find? (fun q => q.id == p.id) = some p :=
          find?_id_of_nodup hWF hp
        rw [hpid] at hfp
        rw [findProduct, hfp] at hlb
        have hppb : p = pb := Option.some.inj hlb
        rw [hppb]
        omega
      rw [hs1Eq]
      constructor
      · show (List.map Product.id (applyDecrements s.products sale1.items)).Nodup
        rw [map_id_applyDecrements]
        exact hWF
      · intro p hp
        have hp' : p ∈ applyDecrements s.products items := by
          rw [← hsi]
          exact hp
        exact applyDecrements_nonneg items s.products hnd hnn hstock p hp'

/-- A whole operation sequence preserves id-uniqueness and stock
non-negativity. -/
theorem runOps_preserves (ops : List SaleOp) :
    ∀ s : State, s.WF → StocksNonneg s →
      (runOps s ops).WF ∧ StocksNonneg (runOps s ops) := by
  induction ops with
  | nil => exact fun s h1 h2 => ⟨h1, h2⟩
  | cons op rest ih =>
    intro s h1 h2
    have hstep := stepOp_preserves s op h1 h2
    have hrun : runOps s (op :: rest) = runOps (stepOp s op) rest := rfl
    rw [hrun]
    exact ih _ hstep.1 hstep.2

/-- C2: starting from a store whose product ids are unique (a database
primary-key fact) and every stock is non-negative, after any sequence of
`create`/`remove` operations — hence after each operation of any such
sequence — every product's stock is still non-negative. -/
theorem stock_never_negative (s : State) (ops : List SaleOp)
    (hWF : s.WF) (hnn : StocksNonneg s) :
    StocksNonneg (runOps s ops) :=
  (runOps_preserves ops s hWF hnn).2

/-- Witness for C2: a create followed by a delete of the created sale,
starting at the fixture store. -/
theorem stock_never_negative_witness :
    exState.WF ∧ StocksNonneg exState ∧
    StocksNonneg (runOps exState
      [SaleOp.createOp exDtoNoCustomer 7, SaleOp.deleteOp 100]) :=
  ⟨by decide, by decide,
   stock_never_negative exState
     [SaleOp.createOp exDtoNoCustomer 7, SaleOp.deleteOp 100]
     (by decide) (by decide)⟩

end RepairService
